import Mathlib

/-!
Shallow embedding of the read-side query/translation engine of the
things-bridge repository (the authoritative, recurrence-aware revision of
`db/queries.ts`), together with theorems settling the frozen claims about
its natural-language specification.

The SQLite store is modelled as in-memory lists of rows; SQL `WHERE`
clauses become `List.filter`, `ORDER BY` becomes a stable insertion sort,
`LIMIT n` becomes `List.take n`, and the `LEFT JOIN`s of the shared
`BASE_TASK_SELECT` become a row-projection function.  SQL three-valued
comparison against `NULL` (`col = k` is not satisfied when `col` is NULL)
is modelled by comparing `Option` values against `some k`.
-/

set_option maxHeartbeats 1600000
set_option linter.unnecessarySeqFocus false
set_option linter.unusedVariables false

namespace ThingsBridge

/-! ### Stable sort used to model SQL `ORDER BY` and JS `Array.prototype.sort` -/

/-- Insert `x` into `l` in front of the first element `y` with `le x y`.
With a total `le` this keeps ties in their original relative order, which
matches the stable JS sort; for SQL `ORDER BY` (order of ties unspecified)
it is one faithful deterministic choice. -/
def insertSorted {α : Type} (le : α → α → Bool) (x : α) : List α → List α
  | [] => [x]
  | y :: ys => if le x y then x :: y :: ys else y :: insertSorted le x ys

/-- Stable insertion sort by the boolean relation `le`. -/
def sortBy {α : Type} (le : α → α → Bool) (l : List α) : List α :=
  l.foldr (insertSorted le) []

theorem insertSorted_perm {α : Type} (le : α → α → Bool) (x : α) (l : List α) :
    List.Perm (insertSorted le x l) (x :: l) := by
  induction l with
  | nil => simp [insertSorted]
  | cons y ys ih =>
    simp only [insertSorted]
    split
    · exact List.Perm.refl _
    · exact (List.Perm.cons y ih).trans (List.Perm.swap x y ys)

theorem sortBy_perm {α : Type} (le : α → α → Bool) (l : List α) :
    List.Perm (sortBy le l) l := by
  induction l with
  | nil => simp [sortBy]
  | cons x xs ih =>
    simp only [sortBy, List.foldr] at *
    exact (insertSorted_perm le x _).trans (List.Perm.cons x ih)

theorem mem_sortBy {α : Type} {le : α → α → Bool} {a : α} {l : List α} :
    a ∈ sortBy le l ↔ a ∈ l :=
  (sortBy_perm le l).mem_iff

theorem length_sortBy {α : Type} (le : α → α → Bool) (l : List α) :
    (sortBy le l).length = l.length :=
  (sortBy_perm le l).length_eq

theorem pairwise_insertSorted {α : Type} {le : α → α → Bool}
    (htot : ∀ a b, le a b || le b a) (htrans : ∀ a b c, le a b → le b c → le a c)
    (x : α) {l : List α} (hl : l.Pairwise (fun a b => le a b = true)) :
    (insertSorted le x l).Pairwise (fun a b => le a b = true) := by
  induction l with
  | nil => simp [insertSorted]
  | cons y ys ih =>
    rcases hl with _ | ⟨hy, hys⟩
    simp only [insertSorted]
    split
    · rename_i hxy
      refine List.Pairwise.cons ?_ (List.Pairwise.cons hy hys)
      intro b hb
      rcases List.mem_cons.mp hb with h | h
      · subst h; exact hxy
      · exact htrans x y b hxy (hy _ h)
    · rename_i hxy
      have hyx : le y x = true := by
        have := htot x y
        simp only [Bool.or_eq_true] at this
        rcases this with h | h
        · exact absurd h hxy
        · exact h
      refine List.Pairwise.cons ?_ (ih hys)
      intro b hb
      rcases List.mem_cons.mp ((insertSorted_perm le x ys).mem_iff.mp hb) with h | h
      · subst h; exact hyx
      · exact hy _ h

theorem pairwise_sortBy {α : Type} {le : α → α → Bool}
    (htot : ∀ a b, le a b || le b a) (htrans : ∀ a b c, le a b → le b c → le a c)
    (l : List α) :
    (sortBy le l).Pairwise (fun a b => le a b = true) := by
  induction l with
  | nil => simp [sortBy]
  | cons x xs ih => exact pairwise_insertSorted htot htrans x ih

/-! ### Row Decoder: enum mappings (`statusToString`, `typeToString`, `startToString`) -/

/-- Source constant table `STATUS = { INCOMPLETE: 0, CANCELED: 2, COMPLETED: 3 }`;
the switch defaults to incomplete. -/
def statusToString (status : Int) : String :=
  if status = 3 then "completed"
  else if status = 2 then "canceled"
  else "incomplete"

/-- Source constant table `TYPE = { TODO: 0, PROJECT: 1, HEADING: 2 }`; the default is to-do. -/
def typeToString (type : Int) : String :=
  if type = 1 then "project"
  else if type = 2 then "heading"
  else "to-do"

/-- Function `startToString(start, startBucket, startDate)` from `db/queries.ts`:
the five-step reconciliation of the three raw scheduling fields
(`START_BUCKET.SOMEDAY = 1`).  JS strict equality against a number is
false on `null`, hence the comparisons against `some k`. -/
def startToString (start startBucket startDate : Option Int) : String :=
  if start = some 2 then "Someday"
  else if start = some 1 ∧ startDate ≠ none then "Anytime"
  else if startBucket = some 1 then "Someday"
  else if start = some 0 ∧ startDate = none then "Inbox"
  else "Anytime"

/-! ### Date decoding

`unixToISO` and `thingsScheduleDateToString` format through JavaScript
`new Date(ms).toISOString()`, i.e. the proleptic Gregorian calendar at UTC.
`civilFromDays` is the standard days-to-civil conversion producing exactly
the (year, month, day) that `toISOString` prints. -/

/-- Convert a count of days since 1970-01-01 to `(year, month, day)` in the
proleptic Gregorian calendar (the calendar used by JS `Date`). -/
def civilFromDays (z0 : Int) : Int × Nat × Nat :=
  let z := z0 + 719468
  let era : Int := z.fdiv 146097
  let doe : Nat := (z - era * 146097).toNat
  let yoe : Nat := (doe - doe / 1460 + doe / 36524 - doe / 146096) / 365
  let y : Int := (yoe : Int) + era * 400
  let doy : Nat := doe - (365 * yoe + yoe / 4 - yoe / 100)
  let mp : Nat := (5 * doy + 2) / 153
  let d : Nat := doy - (153 * mp + 2) / 5 + 1
  let m : Nat := if mp < 10 then mp + 3 else mp - 9
  (if m ≤ 2 then y + 1 else y, m, d)

def pad2 (n : Nat) : String :=
  if n < 10 then "0" ++ toString n else toString n

def pad3 (n : Nat) : String :=
  if n < 10 then "00" ++ toString n
  else if n < 100 then "0" ++ toString n
  else toString n

/-- Year field of `toISOString`: four digits for 0..9999, expanded
`±YYYYYY` form outside that range. -/
def padYear (y : Int) : String :=
  if 0 ≤ y ∧ y ≤ 9999 then
    let n := y.toNat
    (if n < 10 then "000" else if n < 100 then "00" else if n < 1000 then "0" else "") ++ toString n
  else if y < 0 then "-" ++ toString (-y).toNat
  else "+" ++ toString y.toNat

def isoDateOfDays (days : Int) : String :=
  let c := civilFromDays days
  padYear c.1 ++ "-" ++ pad2 c.2.1 ++ "-" ++ pad2 c.2.2

/-- Model of `new Date(ms).toISOString()`: UTC timestamp string
of shape `YYYY-MM-DDTHH:mm:ss.sssZ`. -/
def toISOString (ms : Int) : String :=
  let days := ms.fdiv 86400000
  let msOfDay : Nat := (ms - days * 86400000).toNat
  isoDateOfDays days ++ "T" ++ pad2 (msOfDay / 3600000) ++ ":" ++
    pad2 (msOfDay / 60000 % 60) ++ ":" ++ pad2 (msOfDay / 1000 % 60) ++ "." ++
    pad3 (msOfDay % 1000) ++ "Z"

/-- Function `unixToISO`: Unix-epoch seconds to full ISO 8601 string, with `null`
passed through. -/
def unixToISO (timestamp : Option Int) : Option String :=
  match timestamp with
  | none => none
  | some t => some (toISOString (t * 1000))

/-- Function `thingsScheduleDateToString`: startDate/deadline-family raw value plus
the calibrated offset, formatted and truncated to the date part
(`.toISOString().split("T")[0]`, modelled as the prefix before the first
`T`).  The memoized `calibrateStartDateEpoch()` result is passed in as
`offset`. -/
def thingsScheduleDateToString (offset : Int) (dateValue : Option Int) : Option String :=
  match dateValue with
  | none => none
  | some v =>
      some (String.mk ((toISOString ((v + offset) * 1000)).toList.takeWhile (fun c => c ≠ 'T')))

/-! ### Recurrence blob decoding (`parseRecurrenceRule`)

The blob is an XML plist; the source decodes the bytes to a string and
extracts the first occurrence of the pattern
`<key>fu</key>\s*<integer>(\d+)</integer>`.  The blob is modelled as the
decoded string (`TextDecoder` is total); `\s` is modelled as ASCII
whitespace. -/

def isSpaceChar (c : Char) : Bool :=
  c = ' ' ∨ c = '\t' ∨ c = '\n' ∨ c = '\r' ∨ c = '\x0b' ∨ c = '\x0c'

/-- Strip an expected literal prefix, or fail. -/
def stripLit : List Char → List Char → Option (List Char)
  | [], cs => some cs
  | _ :: _, [] => none
  | p :: ps, c :: cs => if p = c then stripLit ps cs else none

def digitsToNat (ds : List Char) : Nat :=
  ds.foldl (fun acc c => acc * 10 + (c.toNat - 48)) 0

/-- Try to match `<key>fu</key>\s*<integer>(\d+)</integer>` at the head of
`cs`; on success return the captured integer. -/
def matchFuAt (cs : List Char) : Option Nat := do
  let cs ← stripLit ("<key>fu</key>").toList cs
  let cs := cs.dropWhile isSpaceChar
  let cs ← stripLit ("<integer>").toList cs
  let ds := cs.takeWhile Char.isDigit
  if ds.isEmpty then none
  else do
    let _ ← stripLit ("</integer>").toList (cs.drop ds.length)
    some (digitsToNat ds)

/-- Leftmost regex match: try `matchFuAt` at every position. -/
def scanFu : List Char → Option Nat
  | [] => none
  | c :: cs =>
      match matchFuAt (c :: cs) with
      | some n => some n
      | none => scanFu cs

/-- Lookup `FREQUENCY_UNIT_MAP[fu]` with the labelled fallback for unknown codes;
the map is `{ 4: daily, 256: weekly, 16: monthly, 2048: yearly }`. -/
def frequencyLabel (fu : Nat) : String :=
  if fu = 4 then "daily"
  else if fu = 256 then "weekly"
  else if fu = 16 then "monthly"
  else if fu = 2048 then "yearly"
  else "every-" ++ toString fu

/-- Function `parseRecurrenceRule(raw)`: a `null` blob gives `null`; otherwise extract
the frequency-unit field and map it; no match gives `null`.  Total — the
source wraps the body in try/catch but no modelled step can throw. -/
def parseRecurrenceRule (raw : Option String) : Option String :=
  match raw with
  | none => none
  | some s =>
      match scanFu s.toList with
      | some fu => some (frequencyLabel fu)
      | none => none

/-! ### SQL `LIKE` (SQLite semantics: case-insensitive on ASCII,
`%` matches any sequence, `_` matches any single character) -/

def lowerAscii (c : Char) : Char :=
  if 'A' ≤ c ∧ c ≤ 'Z' then Char.ofNat (c.toNat + 32) else c

/-- Fuel-indexed LIKE matcher; every step consumes pattern or text, so
fuel `ps.length + ts.length + 1` always suffices. -/
def likeMatchF : Nat → List Char → List Char → Bool
  | 0, _, _ => false
  | _ + 1, [], [] => true
  | _ + 1, [], _ :: _ => false
  | f + 1, '%' :: ps, ts =>
      likeMatchF f ps ts ||
        (match ts with
         | [] => false
         | _ :: ts2 => likeMatchF f ('%' :: ps) ts2)
  | f + 1, '_' :: ps, ts =>
      (match ts with
       | [] => false
       | _ :: ts2 => likeMatchF f ps ts2)
  | _ + 1, _ :: _, [] => false
  | f + 1, p :: ps, t :: ts => lowerAscii p = lowerAscii t && likeMatchF f ps ts

def likeMatch (ps ts : List Char) : Bool :=
  likeMatchF (ps.length + ts.length + 1) ps ts

/-- Evaluation of `col LIKE pattern` on a nullable text column: NULL is not matched. -/
def likeOpt (pat : String) (col : Option String) : Bool :=
  match col with
  | none => false
  | some s => likeMatch pat.toList s.toList

/-- Case-insensitive literal substring test (the contract `searchTodos` is
supposed to implement for its query). -/
def containsCI (needle haystack : String) : Bool :=
  let n := needle.toList.map lowerAscii
  let h := haystack.toList.map lowerAscii
  (List.range (h.length + 1)).any (fun i => n.isPrefixOf (h.drop i))

/-! ### Data model: storage rows and the database -/

/-- Storage row of the `TMTask` relation (the columns the queries read;
nullable columns are `Option`). -/
structure TaskRow where
  uuid : String
  title : Option String
  type : Int
  status : Int
  start : Option Int
  notes : Option String
  startDate : Option Int
  startBucket : Option Int
  deadline : Option Int
  creationDate : Option Int
  userModificationDate : Option Int
  stopDate : Option Int
  project : Option String
  area : Option String
  reminderTime : Option Int
  rt1_recurrenceRule : Option String
  rt1_nextInstanceStartDate : Option Int
  rt1_instanceCreationPaused : Option Int
  trashed : Int
  heading : Option String
  todayIndex : Int
  index : Int
  deriving Repr, DecidableEq

/-- Storage row of `TMArea`. -/
structure AreaRow where
  uuid : String
  title : String
  deriving Repr, DecidableEq

/-- Storage row of `TMTag`. -/
structure TagRow where
  uuid : String
  title : String
  shortcut : Option String
  deriving Repr, DecidableEq

/-- Storage row of the `TMTaskTag` association relation. -/
structure TaskTagRow where
  tasks : String
  tags : String
  deriving Repr, DecidableEq

/-- Storage row of `TMChecklistItem`. -/
structure ChecklistItemRow where
  uuid : String
  title : String
  status : Int
  task : String
  index : Int
  deriving Repr, DecidableEq

/-- The Things 3 SQLite database, as the relations the read path touches. -/
structure ThingsDb where
  tasks : List TaskRow
  areas : List AreaRow
  tagRows : List TagRow
  taskTags : List TaskTagRow
  checklistItems : List ChecklistItemRow
  deriving Repr, DecidableEq

/-- Fetched row shape of `BASE_TASK_SELECT` (the TS `RawTaskRow`
interface): task columns plus the projected join columns
`projectTitle`, the coalesced `area`, and `areaTitle`. -/
structure RawTaskRow where
  uuid : String
  title : Option String
  type : Int
  status : Int
  start : Option Int
  notes : Option String
  startDate : Option Int
  startBucket : Option Int
  deadline : Option Int
  creationDate : Option Int
  userModificationDate : Option Int
  stopDate : Option Int
  project : Option String
  projectTitle : Option String
  area : Option String
  areaTitle : Option String
  reminderTime : Option Int
  rt1_recurrenceRule : Option String
  rt1_nextInstanceStartDate : Option Int
  rt1_instanceCreationPaused : Option Int
  deriving Repr, DecidableEq

/-- Row projection of `BASE_TASK_SELECT`:
`LEFT JOIN TMTask p ON t.project = p.uuid`,
`COALESCE(t.area, p.area)` and
`LEFT JOIN TMArea a ON COALESCE(t.area, p.area) = a.uuid`. -/
def baseSelect (db : ThingsDb) (t : TaskRow) : RawTaskRow :=
  let p : Option TaskRow := db.tasks.find? (fun r => t.project = some r.uuid)
  let areaC : Option String :=
    match t.area with
    | some a => some a
    | none => p.bind (fun r => r.area)
  { uuid := t.uuid
    title := t.title
    type := t.type
    status := t.status
    start := t.start
    notes := t.notes
    startDate := t.startDate
    startBucket := t.startBucket
    deadline := t.deadline
    creationDate := t.creationDate
    userModificationDate := t.userModificationDate
    stopDate := t.stopDate
    project := t.project
    projectTitle := p.bind (fun r => r.title)
    area := areaC
    areaTitle := (areaC.bind (fun av => db.areas.find? (fun ar => ar.uuid = av))).map (fun ar => ar.title)
    reminderTime := t.reminderTime
    rt1_recurrenceRule := t.rt1_recurrenceRule
    rt1_nextInstanceStartDate := t.rt1_nextInstanceStartDate
    rt1_instanceCreationPaused := t.rt1_instanceCreationPaused }

/-! ### Relation fetchers and the decoded domain shapes -/

/-- Decoded checklist item. -/
structure ChecklistItem where
  uuid : String
  title : String
  status : String
  deriving Repr, DecidableEq

/-- Decoded to-do (the TS `Todo` shape of the recurrence-aware revision). -/
structure Todo where
  uuid : String
  title : String
  type : String
  status : String
  notes : String
  start : String
  startDate : Option String
  deadline : Option String
  createdAt : String
  modifiedAt : String
  completedAt : Option String
  project : Option String
  projectTitle : Option String
  area : Option String
  areaTitle : Option String
  tags : List String
  checklist : List ChecklistItem
  reminderTime : Option String
  repeating : Bool
  recurrenceRule : Option String
  nextInstanceDate : Option String
  deriving Repr, DecidableEq

/-- Query of `getTagsForTask`: titles via the `TMTaskTag` ↔ `TMTag` join. -/
def getTagsForTask (db : ThingsDb) (taskUuid : String) : List String :=
  ((db.taskTags.filter (fun tt => tt.tasks = taskUuid)).filterMap
    (fun tt => db.tagRows.find? (fun tg => tg.uuid = tt.tags))).map (fun tg => tg.title)

/-- Query of `getChecklistForTask`: items of the task ordered by the stored
position index ascending. -/
def getChecklistForTask (db : ThingsDb) (taskUuid : String) : List ChecklistItem :=
  (sortBy (fun a b => a.index ≤ b.index)
      (db.checklistItems.filter (fun r => r.task = taskUuid))).map
    (fun r => { uuid := r.uuid, title := r.title, status := statusToString r.status })

/-- Function `rowToTodo` of the recurrence-aware revision.  The memoized
calibration result is passed in as `offset`; `db` stands for the shared
connection used by the per-row fan-out queries. -/
def rowToTodo (db : ThingsDb) (offset : Int) (row : RawTaskRow) : Todo :=
  let isRecurring := row.rt1_recurrenceRule.isSome
  let nextInstanceDate := thingsScheduleDateToString offset row.rt1_nextInstanceStartDate
  let effectiveStartDate :=
    match row.startDate with
    | some v => thingsScheduleDateToString offset (some v)
    | none => if isRecurring then nextInstanceDate else none
  { uuid := row.uuid
    title := row.title.getD ("")
    type := typeToString row.type
    status := statusToString row.status
    notes := row.notes.getD ("")
    start := startToString row.start row.startBucket row.startDate
    startDate := effectiveStartDate
    deadline := thingsScheduleDateToString offset row.deadline
    createdAt := (unixToISO row.creationDate).getD ("")
    modifiedAt := (unixToISO row.userModificationDate).getD ("")
    completedAt := unixToISO row.stopDate
    project := row.project
    projectTitle := row.projectTitle
    area := row.area
    areaTitle := row.areaTitle
    tags := getTagsForTask db row.uuid
    checklist := getChecklistForTask db row.uuid
    reminderTime := unixToISO row.reminderTime
    repeating := isRecurring
    recurrenceRule := parseRecurrenceRule row.rt1_recurrenceRule
    nextInstanceDate := nextInstanceDate }

/-! ### Order keys used by `ORDER BY` clauses and the JS merge sort -/

/-- SQLite `ORDER BY col ASC` on a nullable integer column: NULLs first. -/
def ascNullsFirst (x y : Option Int) : Bool :=
  match x, y with
  | none, _ => true
  | some _, none => false
  | some a, some b => a ≤ b

/-- JS comparator key order with `null` replaced by `Infinity`: absent keys
sort last. -/
def ascNoneLast (x y : Option Int) : Bool :=
  match x, y with
  | _, none => true
  | none, some _ => false
  | some a, some b => a ≤ b

/-- SQLite `ORDER BY col DESC` on a nullable integer column: NULLs last. -/
def descNullsLast (x y : Option Int) : Bool :=
  match x, y with
  | _, none => true
  | none, some _ => false
  | some a, some b => b ≤ a

/-- SQLite BINARY collation: lexicographic comparison of the UTF-8 bytes,
equivalently of the code points. -/
def charsLe : List Char → List Char → Bool
  | [], _ => true
  | _ :: _, [] => false
  | a :: as, b :: bs =>
      if a.toNat < b.toNat then true
      else if b.toNat < a.toNat then false
      else charsLe as bs

/-- SQLite `ORDER BY col ASC` on a nullable text column: NULLs first. -/
def titleAscNullsFirst (x y : Option String) : Bool :=
  match x, y with
  | none, _ => true
  | some _, none => false
  | some a, some b => charsLe a.toList b.toList

/-! ### Epoch Calibrator -/

/-- Row selection of the calibration query:
`WHERE start = 1 AND startDate IS NOT NULL AND status = 0 AND trashed = 0`. -/
def calibCandidates (db : ThingsDb) : List TaskRow :=
  db.tasks.filter
    (fun t => t.start = some 1 ∧ t.startDate ≠ none ∧ t.status = 0 ∧ t.trashed = 0)

/-- Calibration candidates in `ORDER BY startDate DESC` order; the source
takes the first (`LIMIT 1` + `.get()`). -/
def calibSorted (db : ThingsDb) : List TaskRow :=
  sortBy (fun a b => descNullsLast a.startDate b.startDate) (calibCandidates db)

/-- Function `calibrateStartDateEpoch` (uncached computation; the process
memoizes the first result, which is pure in `db` and the clock reading
`nowMs = Date.now()`).  Candidate rows always carry a start date, so the
`getD 0` default is never read. -/
def calibrateStartDateEpoch (db : ThingsDb) (nowMs : Int) : Int :=
  match (calibSorted db).head? with
  | some row =>
      let todayMidnightUnix := nowMs.fdiv 86400000 * 86400
      let taskDay := (row.startDate.getD 0).fdiv 86400
      todayMidnightUnix - taskDay * 86400
  | none => 1637712000

/-! ### List Query Engine (`getTodosByList` of the recurrence-aware
revision) -/

/-- WHERE clause of the inbox view (no ORDER BY: table order). -/
def inboxRows (db : ThingsDb) : List TaskRow :=
  db.tasks.filter (fun t =>
    t.type = 0 ∧ t.status = 0 ∧ t.trashed = 0 ∧ t.start = some 0 ∧
    t.startDate = none ∧ t.startBucket = some 0 ∧ t.project = none ∧ t.heading = none)

/-- Concrete fetch of the today view:
incomplete, non-trashed to-dos with `start = 1` and a start date,
`ORDER BY todayIndex ASC`. -/
def todayConcreteRows (db : ThingsDb) : List TaskRow :=
  sortBy (fun a b => a.todayIndex ≤ b.todayIndex)
    (db.tasks.filter (fun t =>
      t.type = 0 ∧ t.status = 0 ∧ t.trashed = 0 ∧ t.start = some 1 ∧ t.startDate ≠ none))

/-- The calibrated raw-encoding value of today used by the today/upcoming
branches: `todayMidnightUnix - offset`. -/
def todayThingsValue (db : ThingsDb) (nowMs : Int) : Int :=
  nowMs.fdiv 86400000 * 86400 - calibrateStartDateEpoch db nowMs

/-- Recurring-template fetch of the today view: active (not paused)
templates whose next instance lies in the lenient ±86400 window,
`ORDER BY rt1_nextInstanceStartDate ASC`. -/
def todayRecurringRows (db : ThingsDb) (nowMs : Int) : List TaskRow :=
  let todayStart := todayThingsValue db nowMs - 86400
  let todayEnd := todayThingsValue db nowMs + 86400
  sortBy (fun a b => ascNullsFirst a.rt1_nextInstanceStartDate b.rt1_nextInstanceStartDate)
    (db.tasks.filter (fun t =>
      t.type = 0 ∧ t.status = 0 ∧ t.trashed = 0 ∧ t.rt1_recurrenceRule ≠ none ∧
      t.rt1_instanceCreationPaused = some 0 ∧
      t.rt1_nextInstanceStartDate.any
        (fun v => decide (todayStart ≤ v) && decide (v < todayEnd))))

/-- Merge step of the today branch: recurring templates whose UUID already
appears among the concrete rows are dropped (concrete rows win). -/
def todayMergedRows (db : ThingsDb) (nowMs : Int) : List RawTaskRow :=
  let todayRows := (todayConcreteRows db).map (baseSelect db)
  todayRows ++
    ((todayRecurringRows db nowMs).map (baseSelect db)).filter
      (fun r => !(todayRows.any (fun c => c.uuid = r.uuid)))

/-- Regular fetch of the upcoming view: incomplete, non-trashed to-dos with
`start = 1`, a start date, and `startBucket = 0`, `ORDER BY startDate ASC`. -/
def upcomingRegularRows (db : ThingsDb) : List TaskRow :=
  sortBy (fun a b => ascNullsFirst a.startDate b.startDate)
    (db.tasks.filter (fun t =>
      t.type = 0 ∧ t.status = 0 ∧ t.trashed = 0 ∧ t.start = some 1 ∧
      t.startDate ≠ none ∧ t.startBucket = some 0))

/-- Recurring fetch of the upcoming view: active (not paused) templates
whose next instance is strictly after the calibrated today value. -/
def upcomingRecurringRows (db : ThingsDb) (nowMs : Int) : List TaskRow :=
  sortBy (fun a b => ascNullsFirst a.rt1_nextInstanceStartDate b.rt1_nextInstanceStartDate)
    (db.tasks.filter (fun t =>
      t.type = 0 ∧ t.status = 0 ∧ t.trashed = 0 ∧ t.rt1_recurrenceRule ≠ none ∧
      t.rt1_instanceCreationPaused = some 0 ∧ t.rt1_nextInstanceStartDate ≠ none ∧
      t.rt1_nextInstanceStartDate.any
        (fun v => decide (todayThingsValue db nowMs < v))))

/-- Seen-set deduplication of the upcoming branch: walk the concatenated
fetches, keeping the first row of each UUID. -/
def dedupGo (seen : List String) : List RawTaskRow → List RawTaskRow
  | [] => []
  | r :: rest =>
      if seen.contains r.uuid then dedupGo seen rest
      else r :: dedupGo (r.uuid :: seen) rest

/-- Effective sort date of the upcoming branch:
`rt1_nextInstanceStartDate` for rows carrying a recurrence rule,
`startDate` otherwise (`null` becomes `Infinity`, handled by `ascNoneLast`). -/
def effectiveDate (r : RawTaskRow) : Option Int :=
  if r.rt1_recurrenceRule.isSome then r.rt1_nextInstanceStartDate else r.startDate

def effectiveLe (a b : RawTaskRow) : Bool :=
  ascNoneLast (effectiveDate a) (effectiveDate b)

/-- Merge, dedup and stable sort of the upcoming branch. -/
def upcomingMergedRows (db : ThingsDb) (nowMs : Int) : List RawTaskRow :=
  sortBy effectiveLe
    (dedupGo []
      ((upcomingRegularRows db).map (baseSelect db) ++
        (upcomingRecurringRows db nowMs).map (baseSelect db)))

/-- WHERE and ORDER BY of the anytime view. -/
def anytimeRows (db : ThingsDb) : List TaskRow :=
  sortBy (fun a b => a.todayIndex ≤ b.todayIndex)
    (db.tasks.filter (fun t =>
      t.type = 0 ∧ t.status = 0 ∧ t.trashed = 0 ∧ t.start = some 1 ∧ t.startBucket = some 0))

/-- WHERE and ORDER BY of the someday view. -/
def somedayRows (db : ThingsDb) : List TaskRow :=
  sortBy (fun a b => descNullsLast a.creationDate b.creationDate)
    (db.tasks.filter (fun t =>
      t.type = 0 ∧ t.status = 0 ∧ t.trashed = 0 ∧ t.start = some 2))

/-- WHERE, ORDER BY and LIMIT of the logbook view: completed or canceled,
by stop date descending, capped at 50. -/
def logbookRows (db : ThingsDb) : List TaskRow :=
  (sortBy (fun a b => descNullsLast a.stopDate b.stopDate)
    (db.tasks.filter (fun t =>
      t.type = 0 ∧ (t.status = 3 ∨ t.status = 2) ∧ t.trashed = 0))).take 50

/-- Function `getTodosByList`: the seven-way dispatch.  An unknown list
name hits the `WHERE 1 = 0` default and yields no rows. -/
def getTodosByList (db : ThingsDb) (nowMs : Int) (list : String) : List Todo :=
  let offset := calibrateStartDateEpoch db nowMs
  match list with
  | "inbox" => (inboxRows db).map (fun t => rowToTodo db offset (baseSelect db t))
  | "today" => (todayMergedRows db nowMs).map (fun r => rowToTodo db offset r)
  | "upcoming" => (upcomingMergedRows db nowMs).map (fun r => rowToTodo db offset r)
  | "anytime" => (anytimeRows db).map (fun t => rowToTodo db offset (baseSelect db t))
  | "someday" => (somedayRows db).map (fun t => rowToTodo db offset (baseSelect db t))
  | "logbook" => (logbookRows db).map (fun t => rowToTodo db offset (baseSelect db t))
  | _ => []

/-! ### Search, lookups, projects, by-tag -/

/-- Row selection of `searchTodos`: the raw query is embedded between two
`%` characters with no escaping, matched against title or notes, ordered by
modification date descending, capped at 50. -/
def searchRows (db : ThingsDb) (q : String) : List TaskRow :=
  let pattern := "%" ++ q ++ "%"
  (sortBy (fun a b => descNullsLast a.userModificationDate b.userModificationDate)
    (db.tasks.filter (fun t =>
      t.type = 0 ∧ t.trashed = 0 ∧ (likeOpt pattern t.title ∨ likeOpt pattern t.notes)))).take 50

def searchTodos (db : ThingsDb) (nowMs : Int) (q : String) : List Todo :=
  (searchRows db q).map (fun t => rowToTodo db (calibrateStartDateEpoch db nowMs) (baseSelect db t))

/-- Function `getTodoByUuid`: first row with the UUID and `type = TODO`;
note there is no `trashed` condition in this WHERE clause. -/
def getTodoByUuid (db : ThingsDb) (nowMs : Int) (uuid : String) : Option Todo :=
  ((db.tasks.filter (fun t => t.uuid = uuid ∧ t.type = 0)).head?).map
    (fun t => rowToTodo db (calibrateStartDateEpoch db nowMs) (baseSelect db t))

/-- Decoded project (the TS `Project` shape). -/
structure Project where
  uuid : String
  title : String
  status : String
  notes : String
  start : String
  startDate : Option String
  deadline : Option String
  createdAt : String
  modifiedAt : String
  completedAt : Option String
  area : Option String
  areaTitle : Option String
  tags : List String
  todoCount : Nat
  deriving Repr, DecidableEq

/-- Subquery `(SELECT COUNT(*) ... )` of the project queries: non-trashed
to-do children. -/
def todoCountFor (db : ThingsDb) (uuid : String) : Nat :=
  (db.tasks.filter (fun s => s.project = some uuid ∧ s.type = 0 ∧ s.trashed = 0)).length

/-- Projection of the project queries (their own SELECT joins `TMArea` on
the project row itself and computes the child count). -/
def taskToProject (db : ThingsDb) (offset : Int) (t : TaskRow) : Project :=
  { uuid := t.uuid
    title := t.title.getD ("")
    status := statusToString t.status
    notes := t.notes.getD ("")
    start := startToString t.start t.startBucket t.startDate
    startDate := thingsScheduleDateToString offset t.startDate
    deadline := thingsScheduleDateToString offset t.deadline
    createdAt := (unixToISO t.creationDate).getD ("")
    modifiedAt := (unixToISO t.userModificationDate).getD ("")
    completedAt := unixToISO t.stopDate
    area := t.area
    areaTitle := (t.area.bind (fun av => db.areas.find? (fun ar => ar.uuid = av))).map (fun ar => ar.title)
    tags := getTagsForTask db t.uuid
    todoCount := todoCountFor db t.uuid }

/-- Row selection of `getProjects`: incomplete, non-trashed projects by
title ascending. -/
def projectRows (db : ThingsDb) : List TaskRow :=
  sortBy (fun a b => titleAscNullsFirst a.title b.title)
    (db.tasks.filter (fun t => t.type = 1 ∧ t.trashed = 0 ∧ t.status = 0))

def getProjects (db : ThingsDb) (nowMs : Int) : List Project :=
  (projectRows db).map (taskToProject db (calibrateStartDateEpoch db nowMs))

/-- Decoded project together with its to-dos (`getProjectByUuid` result). -/
structure ProjectDetail extends Project where
  todos : List Todo
  deriving Repr, DecidableEq

/-- Children fetch of `getProjectByUuid`: non-trashed to-dos of the
project, by stored index ascending. -/
def projectTodoRows (db : ThingsDb) (uuid : String) : List TaskRow :=
  sortBy (fun a b => a.index ≤ b.index)
    (db.tasks.filter (fun t => t.project = some uuid ∧ t.type = 0 ∧ t.trashed = 0))

/-- Function `getProjectByUuid`: first row with the UUID and
`type = PROJECT`; note there is no `trashed` condition in this WHERE
clause (the children fetch does have one). -/
def getProjectByUuid (db : ThingsDb) (nowMs : Int) (uuid : String) : Option ProjectDetail :=
  let offset := calibrateStartDateEpoch db nowMs
  ((db.tasks.filter (fun t => t.uuid = uuid ∧ t.type = 1)).head?).map
    (fun t =>
      { toProject := taskToProject db offset t
        todos := (projectTodoRows db uuid).map (fun s => rowToTodo db offset (baseSelect db s)) })

/-- Join of `getTodosByTag` before the task-side WHERE conditions:
`JOIN TMTaskTag tt ON tt.tasks = t.uuid JOIN TMTag tag ON tt.tags = tag.uuid
WHERE tag.title = ?`. -/
def tagJoinRows (db : ThingsDb) (tagName : String) : List TaskRow :=
  db.tasks.flatMap (fun t =>
    (db.taskTags.filter (fun tt => tt.tasks = t.uuid)).flatMap (fun tt =>
      (db.tagRows.filter (fun g => g.uuid = tt.tags ∧ g.title = tagName)).map (fun _ => t)))

def byTagRows (db : ThingsDb) (tagName : String) : List TaskRow :=
  sortBy (fun a b => descNullsLast a.userModificationDate b.userModificationDate)
    ((tagJoinRows db tagName).filter (fun t => t.type = 0 ∧ t.trashed = 0 ∧ t.status = 0))

def getTodosByTag (db : ThingsDb) (nowMs : Int) (tagName : String) : List Todo :=
  (byTagRows db tagName).map
    (fun t => rowToTodo db (calibrateStartDateEpoch db nowMs) (baseSelect db t))

/-! ### Properties of the order relations and of deduplication -/

theorem ascNullsFirst_total (x y : Option Int) : ascNullsFirst x y || ascNullsFirst y x := by
  cases x <;> cases y <;> simp [ascNullsFirst] <;> omega

theorem ascNullsFirst_trans (x y z : Option Int)
    (h1 : ascNullsFirst x y) (h2 : ascNullsFirst y z) : ascNullsFirst x z := by
  cases x <;> cases y <;> cases z <;> simp [ascNullsFirst] at * <;> omega

theorem ascNoneLast_total (x y : Option Int) : ascNoneLast x y || ascNoneLast y x := by
  cases x <;> cases y <;> simp [ascNoneLast] <;> omega

theorem ascNoneLast_trans (x y z : Option Int)
    (h1 : ascNoneLast x y) (h2 : ascNoneLast y z) : ascNoneLast x z := by
  cases x <;> cases y <;> cases z <;> simp [ascNoneLast] at * <;> omega

theorem descNullsLast_total (x y : Option Int) : descNullsLast x y || descNullsLast y x := by
  cases x <;> cases y <;> simp [descNullsLast] <;> omega

theorem descNullsLast_trans (x y z : Option Int)
    (h1 : descNullsLast x y) (h2 : descNullsLast y z) : descNullsLast x z := by
  cases x <;> cases y <;> cases z <;> simp [descNullsLast] at * <;> omega

theorem effectiveLe_total (a b : RawTaskRow) : effectiveLe a b || effectiveLe b a :=
  ascNoneLast_total _ _

theorem effectiveLe_trans (a b c : RawTaskRow)
    (h1 : effectiveLe a b) (h2 : effectiveLe b c) : effectiveLe a c :=
  ascNoneLast_trans _ _ _ h1 h2

theorem mem_of_mem_dedupGo {x : RawTaskRow} :
    ∀ {l : List RawTaskRow} {seen : List String}, x ∈ dedupGo seen l → x ∈ l := by
  intro l
  induction l with
  | nil => intro seen h; simp [dedupGo] at h
  | cons r rest ih =>
    intro seen h
    simp only [dedupGo] at h
    split at h
    · exact List.mem_cons_of_mem r (ih h)
    · rcases List.mem_cons.mp h with h | h
      · exact h ▸ List.mem_cons_self r rest
      · exact List.mem_cons_of_mem r (ih h)

theorem dedupGo_filter_of_seen (u : String) :
    ∀ (l : List RawTaskRow) (seen : List String), u ∈ seen →
      (dedupGo seen l).filter (fun x => x.uuid = u) = [] := by
  intro l
  induction l with
  | nil => intro seen _; simp [dedupGo]
  | cons r rest ih =>
    intro seen hu
    simp only [dedupGo]
    split
    · exact ih seen hu
    · rename_i hns
      have hru : ¬ r.uuid = u := by
        intro h
        exact hns (List.elem_iff.mpr (h ▸ hu))
      simp only [List.filter_cons, decide_eq_true_eq]
      rw [if_neg hru]
      exact ih (r.uuid :: seen) (List.mem_cons_of_mem _ hu)

theorem dedupGo_filter_head (u : String) (c : RawTaskRow) :
    ∀ (l : List RawTaskRow) (seen : List String), u ∉ seen →
      (l.filter (fun x => x.uuid = u)).head? = some c →
      (dedupGo seen l).filter (fun x => x.uuid = u) = [c] := by
  intro l
  induction l with
  | nil => intro seen _ h; simp [List.filter] at h
  | cons r rest ih =>
    intro seen hu hh
    simp only [dedupGo]
    by_cases hru : r.uuid = u
    · have hns : ¬ seen.contains r.uuid = true := by
        intro h
        exact hu (hru ▸ List.elem_iff.mp h)
      rw [if_neg hns]
      have hc : r = c := by
        simp only [List.filter_cons, decide_eq_true_eq, if_pos hru, List.head?_cons,
          Option.some_inj] at hh
        exact hh
      subst hc
      simp only [List.filter_cons, decide_eq_true_eq, if_pos hru]
      have hdone : (dedupGo (r.uuid :: seen) rest).filter (fun x => x.uuid = u) = [] :=
        dedupGo_filter_of_seen u rest (r.uuid :: seen)
          (hru ▸ List.mem_cons_self r.uuid seen)
      rw [hdone]
    · have hh2 : (rest.filter (fun x => x.uuid = u)).head? = some c := by
        simpa [List.filter_cons, hru] using hh
      split
      · exact ih seen hu hh2
      · simp only [List.filter_cons, decide_eq_true_eq, if_neg hru]
        refine ih (r.uuid :: seen) ?_ hh2
        intro hmem
        rcases List.mem_cons.mp hmem with h | h
        · exact hru h.symm
        · exact hu h

theorem rowToTodo_uuid (db : ThingsDb) (offset : Int) (r : RawTaskRow) :
    (rowToTodo db offset r).uuid = r.uuid := rfl

theorem baseSelect_uuid (db : ThingsDb) (t : TaskRow) :
    (baseSelect db t).uuid = t.uuid := rfl

theorem baseSelect_trashed_free (db : ThingsDb) (t : TaskRow) :
    (baseSelect db t).startDate = t.startDate ∧
    (baseSelect db t).rt1_recurrenceRule = t.rt1_recurrenceRule ∧
    (baseSelect db t).rt1_nextInstanceStartDate = t.rt1_nextInstanceStartDate :=
  ⟨rfl, rfl, rfl⟩

/-! ### Concrete databases used by witnesses and counterexamples -/

/-- Neutral task row: every nullable column NULL, numeric flags zero. -/
def rowDefault : TaskRow :=
  { uuid := "", title := none, type := 0, status := 0, start := none, notes := none,
    startDate := none, startBucket := none, deadline := none, creationDate := none,
    userModificationDate := none, stopDate := none, project := none, area := none,
    reminderTime := none, rt1_recurrenceRule := none, rt1_nextInstanceStartDate := none,
    rt1_instanceCreationPaused := none, trashed := 0, heading := none,
    todayIndex := 0, index := 0 }

def emptyDb : ThingsDb :=
  { tasks := [], areas := [], tagRows := [], taskTags := [], checklistItems := [] }

/-- A trashed to-do, for the lookup counterexample. -/
def trashRow : TaskRow :=
  { rowDefault with
    uuid := "t1"
    title := some "gone"
    trashed := 1 }

def dbTrash : ThingsDb := { emptyDb with tasks := [trashRow] }

/-- An inbox to-do, for the amended-claim witness. -/
def inboxRow : TaskRow :=
  { rowDefault with
    uuid := "i1"
    title := some "in"
    start := some 0
    startBucket := some 0 }

def dbInbox : ThingsDb := { emptyDb with tasks := [inboxRow] }

/-- Concrete scheduled task and recurring template sharing one UUID, for
the today/upcoming dedup witnesses.  With `nowMs = 0` the calibration row
is `c3Concrete` itself (raw day 0), so the calibrated offset is 0 and the
today window is `[-86400, 86400)`. -/
def c3Concrete : TaskRow :=
  { rowDefault with
    uuid := "r1"
    title := some "c"
    start := some 1
    startDate := some 100
    startBucket := some 0 }

def c3Template : TaskRow :=
  { rowDefault with
    uuid := "r1"
    title := some "t"
    rt1_recurrenceRule := some "<key>fu</key><integer>4</integer>"
    rt1_nextInstanceStartDate := some 500
    rt1_instanceCreationPaused := some 0 }

def dbDedup : ThingsDb := { emptyDb with tasks := [c3Concrete, c3Template] }

/-- One row whose title defeats the unescaped LIKE pattern: it matches
`%a%b%` but does not contain the literal text a%b. -/
def searchRowAxb : TaskRow :=
  { rowDefault with
    uuid := "s1"
    title := some "axb" }

def dbSearch : ThingsDb := { emptyDb with tasks := [searchRowAxb] }

/-! ### Claims -/

/-- C1: for every raw input triple (explicit start flag, bucket code,
start-date value), `startToString` follows the five-step precedence with
first match winning: explicit someday flag (2) gives Someday; scheduled
flag (1) with a start date present gives Anytime; bucket code marking
someday (1) gives Someday; inbox flag (0) with no start date gives Inbox;
otherwise Anytime. -/
theorem C1_startToString_precedence (s b d : Option Int) :
    (s = some 2 → startToString s b d = "Someday") ∧
    (s ≠ some 2 → s = some 1 → d ≠ none → startToString s b d = "Anytime") ∧
    (s ≠ some 2 → ¬(s = some 1 ∧ d ≠ none) → b = some 1 →
      startToString s b d = "Someday") ∧
    (s ≠ some 2 → ¬(s = some 1 ∧ d ≠ none) → b ≠ some 1 → s = some 0 → d = none →
      startToString s b d = "Inbox") ∧
    (s ≠ some 2 → ¬(s = some 1 ∧ d ≠ none) → b ≠ some 1 → ¬(s = some 0 ∧ d = none) →
      startToString s b d = "Anytime") := by
  unfold startToString
  refine ⟨?_, ?_, ?_, ?_, ?_⟩ <;> intros <;> split_ifs <;> tauto

/-- Witness for C1 at the inbox case of the precedence. -/
theorem C1_startToString_precedence_witness :
    startToString (some 0) (some 0) none = "Inbox" :=
  (C1_startToString_precedence (some 0) (some 0) none).2.2.2.1
    (by decide) (by decide) (by decide) rfl rfl

/-- C6: for every decoded row, a recurrence blob with a null raw startDate
makes the exposed startDate equal the decoded next-occurrence date (and the
exposed nextInstanceDate); a present raw startDate is decoded as itself;
with neither, startDate is absent. -/
theorem C6_effective_startDate (db : ThingsDb) (offset : Int) (row : RawTaskRow) :
    (row.startDate = none → row.rt1_recurrenceRule ≠ none →
      (rowToTodo db offset row).startDate =
        thingsScheduleDateToString offset row.rt1_nextInstanceStartDate ∧
      (rowToTodo db offset row).startDate = (rowToTodo db offset row).nextInstanceDate) ∧
    (∀ v, row.startDate = some v →
      (rowToTodo db offset row).startDate = thingsScheduleDateToString offset (some v)) ∧
    (row.startDate = none → row.rt1_recurrenceRule = none →
      (rowToTodo db offset row).startDate = none) := by
  refine ⟨?_, ?_, ?_⟩
  · intro h1 h2
    rcases hr : row.rt1_recurrenceRule with _ | blob
    · exact absurd hr h2
    · constructor <;> simp [rowToTodo, h1, hr]
  · intro v hv
    simp [rowToTodo, hv]
  · intro h1 h2
    simp [rowToTodo, h1, h2]

/-- Witness for C6 at the recurring template of `dbDedup` (blob present,
own startDate null). -/
theorem C6_effective_startDate_witness :
    (rowToTodo dbDedup 0 (baseSelect dbDedup c3Template)).startDate =
      thingsScheduleDateToString 0 (baseSelect dbDedup c3Template).rt1_nextInstanceStartDate :=
  ((C6_effective_startDate dbDedup 0 (baseSelect dbDedup c3Template)).1
    (by decide) (by decide)).1

/-- Frequency-unit labelling as the claim states it: the known codes map
to daily/weekly/monthly/yearly, any other code n maps to every-n. -/
def frequencyLabelSpec (n : Nat) : String :=
  if n = 4 then "daily"
  else if n = 256 then "weekly"
  else if n = 16 then "monthly"
  else if n = 2048 then "yearly"
  else "every-" ++ toString n

/-- C7: recurrence-blob decoding is total and never raises: a missing blob
or an unlocatable frequency field yields absent, an extracted code is
mapped through the claimed labelling, and a row is marked repeating exactly
when the blob is present. -/
theorem C7_recurrence_decode_total :
    parseRecurrenceRule none = none ∧
    (∀ s fu, scanFu s.toList = some fu →
      parseRecurrenceRule (some s) = some (frequencyLabelSpec fu)) ∧
    (∀ s, scanFu s.toList = none → parseRecurrenceRule (some s) = none) ∧
    (∀ (db : ThingsDb) (offset : Int) (row : RawTaskRow),
      (rowToTodo db offset row).repeating = row.rt1_recurrenceRule.isSome) := by
  refine ⟨rfl, ?_, ?_, ?_⟩
  · intro s fu h
    have h2 : scanFu s.data = some fu := h
    simp [parseRecurrenceRule, h2, frequencyLabel, frequencyLabelSpec]
  · intro s h
    have h2 : scanFu s.data = none := h
    simp [parseRecurrenceRule, h2]
  · intro db offset row
    rfl

/-- Witness for C7 at a daily-frequency plist fragment. -/
theorem C7_recurrence_decode_total_witness :
    parseRecurrenceRule (some "<key>fu</key><integer>4</integer>") =
      some (frequencyLabelSpec 4) :=
  C7_recurrence_decode_total.2.1 ("<key>fu</key><integer>4</integer>") 4 (by decide)

/-- C10: `searchTodos` embeds the raw query between two percent characters
without escaping LIKE metacharacters, so a query containing a percent sign
matches a to-do whose title and notes do not contain the query literally:
querying a%b on a store holding only the title axb returns that to-do. -/
theorem C10_search_like_metachars :
    ∃ t ∈ searchTodos dbSearch 0 ("a%b"),
      containsCI ("a%b") t.title = false ∧ containsCI ("a%b") t.notes = false := by
  decide

/-- C2 counterexample: the by-UUID lookup applies no trashed filter, so a
trashed identifier is returned, not absent. -/
theorem C2_trashed_lookup_counterexample :
    trashRow ∈ dbTrash.tasks ∧ trashRow.trashed = 1 ∧
    getTodoByUuid dbTrash 0 ("t1") ≠ none := by
  decide

/-- C5: when a calibration row exists, `calibrateStartDateEpoch` returns
floor(now/86400)·86400 − floor(rawValue/86400)·86400 with rawValue the
largest start date among active, non-trashed, incomplete tasks having the
scheduled flag and a start date (`now` in seconds, the clock reading
`nowMs` in milliseconds); with no such row it returns the hardcoded
fallback 1637712000.  The function is total, so it never fails. -/
theorem C5_calibration_formula :
    (∀ (db : ThingsDb) (nowMs nowSec raw : Int),
      1000 * nowSec ≤ nowMs → nowMs < 1000 * (nowSec + 1) →
      (∃ r ∈ calibCandidates db, r.startDate = some raw) →
      (∀ r ∈ calibCandidates db, ∀ v, r.startDate = some v → v ≤ raw) →
      calibrateStartDateEpoch db nowMs =
        nowSec.fdiv 86400 * 86400 - raw.fdiv 86400 * 86400) ∧
    (∀ (db : ThingsDb) (nowMs : Int), calibCandidates db = [] →
      calibrateStartDateEpoch db nowMs = 1637712000) := by
  constructor
  · intro db nowMs nowSec raw h1 h2 hraw hmax
    obtain ⟨r, hrmem, hrdate⟩ := hraw
    have hpair : (calibSorted db).Pairwise
        (fun a b => descNullsLast a.startDate b.startDate = true) :=
      @pairwise_sortBy TaskRow (fun a b => descNullsLast a.startDate b.startDate)
        (fun a b => descNullsLast_total a.startDate b.startDate)
        (fun a b c h1 h2 => descNullsLast_trans a.startDate b.startDate c.startDate h1 h2)
        (calibCandidates db)
    cases hl : calibSorted db with
    | nil =>
        exfalso
        have hmem : r ∈ calibSorted db := mem_sortBy.mpr hrmem
        rw [hl] at hmem
        simp at hmem
    | cons row tail =>
        have hrow_mem : row ∈ calibCandidates db := by
          have hmem : row ∈ calibSorted db := by
            rw [hl]; exact List.mem_cons_self _ _
          exact mem_sortBy.mp hmem
        have hcond := of_decide_eq_true (List.mem_filter.mp hrow_mem).2
        obtain ⟨-, hsd, -, -⟩ := hcond
        rcases hm : row.startDate with _ | m
        · exact absurd hm hsd
        have hm_le : m ≤ raw := hmax row hrow_mem m hm
        have hraw_le : raw ≤ m := by
          have hr_sorted : r ∈ calibSorted db := mem_sortBy.mpr hrmem
          rw [hl] at hr_sorted hpair
          rcases List.mem_cons.mp hr_sorted with h | h
          · subst h
            rw [hm] at hrdate
            injection hrdate with h
            omega
          · have hd := (List.pairwise_cons.mp hpair).1 r h
            rw [hm, hrdate] at hd
            simpa [descNullsLast] using hd
        have hmr : m = raw := Int.le_antisymm hm_le hraw_le
        subst hmr
        have hdiv : nowMs.fdiv 86400000 = nowSec.fdiv 86400 := by
          rw [Int.fdiv_eq_ediv _ (by norm_num), Int.fdiv_eq_ediv _ (by norm_num)]
          omega
        simp only [calibrateStartDateEpoch, hl, List.head?_cons, hm, Option.getD_some]
        rw [hdiv]
  · intro db nowMs hempty
    simp only [calibrateStartDateEpoch, calibSorted, hempty, sortBy, List.foldr,
      List.head?_nil]

/-- Witness for C5: on `dbDedup` at clock 0 the single candidate has raw
value 100, and on the empty store the fallback constant is returned. -/
theorem C5_calibration_formula_witness :
    calibrateStartDateEpoch dbDedup 0 =
      Int.fdiv 0 86400 * 86400 - Int.fdiv 100 86400 * 86400 ∧
    calibrateStartDateEpoch emptyDb 5 = 1637712000 :=
  ⟨C5_calibration_formula.1 dbDedup 0 0 100 (by decide) (by decide)
      ⟨c3Concrete, by decide, by decide⟩ (by decide),
    C5_calibration_formula.2 emptyDb 5 rfl⟩

/-- C8: for every database state, the logbook view returns at most 50
entries ordered by completion time descending, and search returns at most
50 entries ordered by modification time descending (NULL keys last, as
SQLite orders them), even when more rows match. -/
theorem C8_caps_and_order (db : ThingsDb) (nowMs : Int) (q : String) :
    (getTodosByList db nowMs "logbook").length ≤ 50 ∧
    (logbookRows db).Pairwise (fun a b => descNullsLast a.stopDate b.stopDate = true) ∧
    getTodosByList db nowMs "logbook" =
      (logbookRows db).map
        (fun t => rowToTodo db (calibrateStartDateEpoch db nowMs) (baseSelect db t)) ∧
    (searchTodos db nowMs q).length ≤ 50 ∧
    (searchRows db q).Pairwise
      (fun a b => descNullsLast a.userModificationDate b.userModificationDate = true) ∧
    searchTodos db nowMs q =
      (searchRows db q).map
        (fun t => rowToTodo db (calibrateStartDateEpoch db nowMs) (baseSelect db t)) := by
  have hlog : getTodosByList db nowMs "logbook" =
      (logbookRows db).map
        (fun t => rowToTodo db (calibrateStartDateEpoch db nowMs) (baseSelect db t)) := rfl
  have hsearch : searchTodos db nowMs q =
      (searchRows db q).map
        (fun t => rowToTodo db (calibrateStartDateEpoch db nowMs) (baseSelect db t)) := rfl
  refine ⟨?_, ?_, hlog, ?_, ?_, hsearch⟩
  · rw [hlog, List.length_map]
    exact List.length_take_le _ _
  · exact List.Pairwise.sublist (List.take_sublist _ _)
      (@pairwise_sortBy TaskRow (fun a b => descNullsLast a.stopDate b.stopDate)
        (fun a b => descNullsLast_total a.stopDate b.stopDate)
        (fun a b c h1 h2 => descNullsLast_trans a.stopDate b.stopDate c.stopDate h1 h2) _)
  · rw [hsearch, List.length_map]
    exact List.length_take_le _ _
  · exact List.Pairwise.sublist (List.take_sublist _ _)
      (@pairwise_sortBy TaskRow
        (fun a b => descNullsLast a.userModificationDate b.userModificationDate)
        (fun a b => descNullsLast_total a.userModificationDate b.userModificationDate)
        (fun a b c h1 h2 => descNullsLast_trans a.userModificationDate
          b.userModificationDate c.userModificationDate h1 h2) _)

/-- C3: in the today view, when a concrete scheduled task and a recurring
template inside the ±1-day window share an identifier, the output contains
exactly one entry for that identifier, namely the concrete row decoded —
the merged result is the concrete fetch followed by the window-filtered
template fetch minus already-seen identifiers. -/
theorem C3_today_concrete_wins (db : ThingsDb) (nowMs : Int) (u : String)
    (c r : RawTaskRow)
    (hc : ((todayConcreteRows db).map (baseSelect db)).filter (fun x => x.uuid = u) = [c])
    (hr : r ∈ (todayRecurringRows db nowMs).map (baseSelect db))
    (hru : r.uuid = u) :
    (getTodosByList db nowMs "today").filter (fun t => t.uuid = u) =
      [rowToTodo db (calibrateStartDateEpoch db nowMs) c] := by
  have htie : getTodosByList db nowMs "today" =
      (todayMergedRows db nowMs).map (rowToTodo db (calibrateStartDateEpoch db nowMs)) := rfl
  rw [htie, List.filter_map]
  have hfold : ((fun t : Todo => decide (t.uuid = u)) ∘
      rowToTodo db (calibrateStartDateEpoch db nowMs)) =
      (fun x : RawTaskRow => decide (x.uuid = u)) := rfl
  rw [hfold]
  suffices h : (todayMergedRows db nowMs).filter (fun x => x.uuid = u) = [c] by
    rw [h]; rfl
  have hcmem : c ∈ ((todayConcreteRows db).map (baseSelect db)).filter
      (fun x => x.uuid = u) := by
    rw [hc]; exact List.mem_singleton.mpr rfl
  obtain ⟨hcA, hcu⟩ := List.mem_filter.mp hcmem
  have hcuu : c.uuid = u := of_decide_eq_true hcu
  simp only [todayMergedRows]
  rw [List.filter_append, hc, List.filter_filter]
  have hnil : (((todayRecurringRows db nowMs).map (baseSelect db)).filter
      (fun a => decide (a.uuid = u) &&
        !((todayConcreteRows db).map (baseSelect db)).any (fun cc => cc.uuid = a.uuid))) = [] := by
    rw [List.filter_eq_nil_iff]
    intro a _ hcontra
    rw [Bool.and_eq_true] at hcontra
    obtain ⟨hau, hnot⟩ := hcontra
    have hau2 : a.uuid = u := of_decide_eq_true hau
    have hany : ((todayConcreteRows db).map (baseSelect db)).any
        (fun cc => cc.uuid = a.uuid) = true :=
      List.any_eq_true.mpr ⟨c, hcA, by rw [hau2, hcuu]; exact decide_eq_true rfl⟩
    rw [hany] at hnot
    simp at hnot
  rw [hnil]
  rfl

/-- Witness for C3 on `dbDedup`: the concrete task and the template share
UUID r1, the template sits in the today window, and the today view holds
exactly the decoded concrete row under that UUID. -/
theorem C3_today_concrete_wins_witness :
    (getTodosByList dbDedup 0 "today").filter (fun t => t.uuid = "r1") =
      [rowToTodo dbDedup (calibrateStartDateEpoch dbDedup 0)
        (baseSelect dbDedup c3Concrete)] :=
  C3_today_concrete_wins dbDedup 0 ("r1") (baseSelect dbDedup c3Concrete)
    (baseSelect dbDedup c3Template) (by decide) (by decide) (by decide)

/-- C9: in the upcoming view the concrete-wins precedence also holds: when
an identifier appears both in the concrete scheduled fetch and in the
recurring-template fetch, the merged output keeps exactly one entry for it,
the concrete row decoded (the concrete fetch is walked first and the
first occurrence per identifier is kept; the final sort only permutes). -/
theorem C9_upcoming_concrete_wins (db : ThingsDb) (nowMs : Int) (u : String)
    (c r : RawTaskRow)
    (hc : ((upcomingRegularRows db).map (baseSelect db)).filter (fun x => x.uuid = u) = [c])
    (hr : r ∈ (upcomingRecurringRows db nowMs).map (baseSelect db))
    (hru : r.uuid = u) :
    (getTodosByList db nowMs "upcoming").filter (fun t => t.uuid = u) =
      [rowToTodo db (calibrateStartDateEpoch db nowMs) c] := by
  have htie : getTodosByList db nowMs "upcoming" =
      (upcomingMergedRows db nowMs).map (rowToTodo db (calibrateStartDateEpoch db nowMs)) := rfl
  rw [htie, List.filter_map]
  have hfold : ((fun t : Todo => decide (t.uuid = u)) ∘
      rowToTodo db (calibrateStartDateEpoch db nowMs)) =
      (fun x : RawTaskRow => decide (x.uuid = u)) := rfl
  rw [hfold]
  suffices h : (upcomingMergedRows db nowMs).filter (fun x => x.uuid = u) = [c] by
    rw [h]; rfl
  have hdedup : (dedupGo []
      ((upcomingRegularRows db).map (baseSelect db) ++
        (upcomingRecurringRows db nowMs).map (baseSelect db))).filter
      (fun x => x.uuid = u) = [c] := by
    refine dedupGo_filter_head u c _ [] (List.not_mem_nil u) ?_
    rw [List.filter_append, hc, List.singleton_append, List.head?_cons]
  have hperm : ((upcomingMergedRows db nowMs).filter (fun x => x.uuid = u)).Perm [c] := by
    have hp := sortBy_perm effectiveLe
      (dedupGo []
        ((upcomingRegularRows db).map (baseSelect db) ++
          (upcomingRecurringRows db nowMs).map (baseSelect db)))
    have := hp.filter (fun x => decide (x.uuid = u))
    rw [hdedup] at this
    exact this
  exact List.perm_singleton.mp hperm

/-- Witness for C9 on `dbDedup`: the concrete task is in the upcoming
regular fetch (bucket anytime, future handled by the merge), the template
with next instance 500 is strictly after the calibrated today value 0, and
the upcoming view keeps exactly the decoded concrete row for UUID r1. -/
theorem C9_upcoming_concrete_wins_witness :
    (getTodosByList dbDedup 0 "upcoming").filter (fun t => t.uuid = "r1") =
      [rowToTodo dbDedup (calibrateStartDateEpoch dbDedup 0)
        (baseSelect dbDedup c3Concrete)] :=
  C9_upcoming_concrete_wins dbDedup 0 ("r1") (baseSelect dbDedup c3Concrete)
    (baseSelect dbDedup c3Template) (by decide) (by decide) (by decide)

/-- C4: the upcoming view selects active templates with next occurrence
strictly after the calibrated today value, merges them with the concrete
scheduled fetch, deduplicates by identifier, and emits the combined set
sorted ascending by effective date (next occurrence for rows carrying a
recurrence rule, raw start date otherwise). -/
theorem C4_upcoming_merge_sorted (db : ThingsDb) (nowMs : Int) :
    getTodosByList db nowMs "upcoming" =
      (upcomingMergedRows db nowMs).map (rowToTodo db (calibrateStartDateEpoch db nowMs)) ∧
    (upcomingMergedRows db nowMs).Pairwise (fun a b => effectiveLe a b = true) ∧
    (upcomingMergedRows db nowMs).Perm
      (dedupGo [] ((upcomingRegularRows db).map (baseSelect db) ++
        (upcomingRecurringRows db nowMs).map (baseSelect db))) ∧
    (∀ t : TaskRow, t ∈ upcomingRecurringRows db nowMs ↔
      (t ∈ db.tasks ∧ t.type = 0 ∧ t.status = 0 ∧ t.trashed = 0 ∧
        t.rt1_recurrenceRule ≠ none ∧ t.rt1_instanceCreationPaused = some 0 ∧
        ∃ v, t.rt1_nextInstanceStartDate = some v ∧ todayThingsValue db nowMs < v)) ∧
    (∀ t : TaskRow, t ∈ upcomingRegularRows db ↔
      (t ∈ db.tasks ∧ t.type = 0 ∧ t.status = 0 ∧ t.trashed = 0 ∧
        t.start = some 1 ∧ t.startDate ≠ none ∧ t.startBucket = some 0)) := by
  refine ⟨rfl, ?_, ?_, ?_, ?_⟩
  · exact @pairwise_sortBy RawTaskRow effectiveLe
      (fun a b => effectiveLe_total a b)
      (fun a b c h1 h2 => effectiveLe_trans a b c h1 h2) _
  · exact sortBy_perm _ _
  · intro t
    constructor
    · intro h
      have h2 := List.mem_filter.mp (mem_sortBy.mp h)
      refine ⟨h2.1, ?_⟩
      have hcond := of_decide_eq_true h2.2
      obtain ⟨h3, h4, h5, h6, h7, h8, h9⟩ := hcond
      refine ⟨h3, h4, h5, h6, h7, ?_⟩
      rcases hv : t.rt1_nextInstanceStartDate with _ | v
      · rw [hv] at h9; simp [Option.any] at h9
      · rw [hv] at h9
        simp only [Option.any, decide_eq_true_eq] at h9
        exact ⟨v, rfl, h9⟩
    · rintro ⟨hmem, h3, h4, h5, h6, h7, v, hv, hlt⟩
      refine mem_sortBy.mpr (List.mem_filter.mpr ⟨hmem, ?_⟩)
      rw [decide_eq_true_eq]
      refine ⟨h3, h4, h5, h6, h7, ?_, ?_⟩
      · rw [hv]; simp
      · rw [hv]
        simp only [Option.any, decide_eq_true_eq]
        exact hlt
  · intro t
    constructor
    · intro h
      have h2 := List.mem_filter.mp (mem_sortBy.mp h)
      exact ⟨h2.1, of_decide_eq_true h2.2⟩
    · rintro ⟨hmem, hcond⟩
      exact mem_sortBy.mpr (List.mem_filter.mpr ⟨hmem, decide_eq_true hcond⟩)

/-! ### Source-row lemmas: every emitted row stems from a non-trashed task -/

theorem inboxRows_source {db : ThingsDb} {x : TaskRow} (h : x ∈ inboxRows db) :
    x ∈ db.tasks ∧ x.trashed = 0 := by
  have h2 := List.mem_filter.mp h
  exact ⟨h2.1, (of_decide_eq_true h2.2).2.2.1⟩

theorem todayConcreteRows_source {db : ThingsDb} {x : TaskRow}
    (h : x ∈ todayConcreteRows db) : x ∈ db.tasks ∧ x.trashed = 0 := by
  have h2 := List.mem_filter.mp (mem_sortBy.mp h)
  exact ⟨h2.1, (of_decide_eq_true h2.2).2.2.1⟩

theorem todayRecurringRows_source {db : ThingsDb} {nowMs : Int} {x : TaskRow}
    (h : x ∈ todayRecurringRows db nowMs) : x ∈ db.tasks ∧ x.trashed = 0 := by
  have h2 := List.mem_filter.mp (mem_sortBy.mp h)
  exact ⟨h2.1, (of_decide_eq_true h2.2).2.2.1⟩

theorem upcomingRegularRows_source {db : ThingsDb} {x : TaskRow}
    (h : x ∈ upcomingRegularRows db) : x ∈ db.tasks ∧ x.trashed = 0 := by
  have h2 := List.mem_filter.mp (mem_sortBy.mp h)
  exact ⟨h2.1, (of_decide_eq_true h2.2).2.2.1⟩

theorem upcomingRecurringRows_source {db : ThingsDb} {nowMs : Int} {x : TaskRow}
    (h : x ∈ upcomingRecurringRows db nowMs) : x ∈ db.tasks ∧ x.trashed = 0 := by
  have h2 := List.mem_filter.mp (mem_sortBy.mp h)
  exact ⟨h2.1, (of_decide_eq_true h2.2).2.2.1⟩

theorem anytimeRows_source {db : ThingsDb} {x : TaskRow} (h : x ∈ anytimeRows db) :
    x ∈ db.tasks ∧ x.trashed = 0 := by
  have h2 := List.mem_filter.mp (mem_sortBy.mp h)
  exact ⟨h2.1, (of_decide_eq_true h2.2).2.2.1⟩

theorem somedayRows_source {db : ThingsDb} {x : TaskRow} (h : x ∈ somedayRows db) :
    x ∈ db.tasks ∧ x.trashed = 0 := by
  have h2 := List.mem_filter.mp (mem_sortBy.mp h)
  exact ⟨h2.1, (of_decide_eq_true h2.2).2.2.1⟩

theorem logbookRows_source {db : ThingsDb} {x : TaskRow} (h : x ∈ logbookRows db) :
    x ∈ db.tasks ∧ x.trashed = 0 := by
  have h2 := List.mem_filter.mp (mem_sortBy.mp (List.mem_of_mem_take h))
  exact ⟨h2.1, (of_decide_eq_true h2.2).2.2⟩

theorem searchRows_source {db : ThingsDb} {q : String} {x : TaskRow}
    (h : x ∈ searchRows db q) : x ∈ db.tasks ∧ x.trashed = 0 := by
  have h2 := List.mem_filter.mp (mem_sortBy.mp (List.mem_of_mem_take h))
  exact ⟨h2.1, (of_decide_eq_true h2.2).2.1⟩

theorem tagJoinRows_subset {db : ThingsDb} {tagName : String} {x : TaskRow}
    (h : x ∈ tagJoinRows db tagName) : x ∈ db.tasks := by
  obtain ⟨t, ht, h2⟩ := List.mem_flatMap.mp h
  obtain ⟨tt, htt, h3⟩ := List.mem_flatMap.mp h2
  obtain ⟨g, hg, h4⟩ := List.mem_map.mp h3
  exact h4 ▸ ht

theorem byTagRows_source {db : ThingsDb} {tagName : String} {x : TaskRow}
    (h : x ∈ byTagRows db tagName) : x ∈ db.tasks ∧ x.trashed = 0 := by
  have h2 := List.mem_filter.mp (mem_sortBy.mp h)
  exact ⟨tagJoinRows_subset h2.1, (of_decide_eq_true h2.2).2.1⟩

theorem projectRows_source {db : ThingsDb} {x : TaskRow} (h : x ∈ projectRows db) :
    x ∈ db.tasks ∧ x.trashed = 0 := by
  have h2 := List.mem_filter.mp (mem_sortBy.mp h)
  exact ⟨h2.1, (of_decide_eq_true h2.2).2.1⟩

theorem projectTodoRows_source {db : ThingsDb} {uuid : String} {x : TaskRow}
    (h : x ∈ projectTodoRows db uuid) : x ∈ db.tasks ∧ x.trashed = 0 := by
  have h2 := List.mem_filter.mp (mem_sortBy.mp h)
  exact ⟨h2.1, (of_decide_eq_true h2.2).2.2⟩

theorem todayMergedRows_source {db : ThingsDb} {nowMs : Int} {r : RawTaskRow}
    (h : r ∈ todayMergedRows db nowMs) :
    ∃ row ∈ db.tasks, row.trashed = 0 ∧ r = baseSelect db row := by
  simp only [todayMergedRows] at h
  rcases List.mem_append.mp h with h | h
  · obtain ⟨row, hrow, heq⟩ := List.mem_map.mp h
    have hs := todayConcreteRows_source hrow
    exact ⟨row, hs.1, hs.2, heq.symm⟩
  · obtain ⟨row, hrow, heq⟩ := List.mem_map.mp (List.mem_filter.mp h).1
    have hs := todayRecurringRows_source hrow
    exact ⟨row, hs.1, hs.2, heq.symm⟩

theorem upcomingMergedRows_source {db : ThingsDb} {nowMs : Int} {r : RawTaskRow}
    (h : r ∈ upcomingMergedRows db nowMs) :
    ∃ row ∈ db.tasks, row.trashed = 0 ∧ r = baseSelect db row := by
  have h2 := mem_of_mem_dedupGo (mem_sortBy.mp h)
  rcases List.mem_append.mp h2 with h3 | h3
  · obtain ⟨row, hrow, heq⟩ := List.mem_map.mp h3
    have hs := upcomingRegularRows_source hrow
    exact ⟨row, hs.1, hs.2, heq.symm⟩
  · obtain ⟨row, hrow, heq⟩ := List.mem_map.mp h3
    have hs := upcomingRecurringRows_source hrow
    exact ⟨row, hs.1, hs.2, heq.symm⟩

/-- Membership in a list of decoded rows lifts to a non-trashed source
task row. -/
theorem exists_decoded_source (db : ThingsDb) (offset : Int) (rows : List TaskRow)
    (hsrc : ∀ x ∈ rows, x ∈ db.tasks ∧ x.trashed = 0) (t : Todo)
    (ht : t ∈ rows.map (fun r => rowToTodo db offset (baseSelect db r))) :
    ∃ row ∈ db.tasks, row.trashed = 0 ∧ t = rowToTodo db offset (baseSelect db row) := by
  obtain ⟨r, hr, hteq⟩ := List.mem_map.mp ht
  exact ⟨r, (hsrc r hr).1, (hsrc r hr).2, hteq.symm⟩

/-- C2 (amended): every to-do or project emitted by the list views, search,
by-tag, the project listing, and a project's children fetch decodes a
non-trashed task row; the single-entity lookups `getTodoByUuid` and
`getProjectByUuid` apply no trashed filter — they return the first row
matching UUID and kind regardless of its trashed flag. -/
theorem C2_trashed_filtering_amended :
    (∀ (db : ThingsDb) (nowMs : Int) (list : String) (t : Todo),
      t ∈ getTodosByList db nowMs list →
      ∃ row ∈ db.tasks, row.trashed = 0 ∧
        t = rowToTodo db (calibrateStartDateEpoch db nowMs) (baseSelect db row)) ∧
    (∀ (db : ThingsDb) (nowMs : Int) (q : String) (t : Todo),
      t ∈ searchTodos db nowMs q →
      ∃ row ∈ db.tasks, row.trashed = 0 ∧
        t = rowToTodo db (calibrateStartDateEpoch db nowMs) (baseSelect db row)) ∧
    (∀ (db : ThingsDb) (nowMs : Int) (tagName : String) (t : Todo),
      t ∈ getTodosByTag db nowMs tagName →
      ∃ row ∈ db.tasks, row.trashed = 0 ∧
        t = rowToTodo db (calibrateStartDateEpoch db nowMs) (baseSelect db row)) ∧
    (∀ (db : ThingsDb) (nowMs : Int) (p : Project),
      p ∈ getProjects db nowMs →
      ∃ row ∈ db.tasks, row.trashed = 0 ∧
        p = taskToProject db (calibrateStartDateEpoch db nowMs) row) ∧
    (∀ (db : ThingsDb) (nowMs : Int) (uuid : String) (pd : ProjectDetail),
      getProjectByUuid db nowMs uuid = some pd →
      ∀ t ∈ pd.todos,
        ∃ row ∈ db.tasks, row.trashed = 0 ∧
          t = rowToTodo db (calibrateStartDateEpoch db nowMs) (baseSelect db row)) ∧
    (∀ (db : ThingsDb) (nowMs : Int) (uuid : String) (row : TaskRow),
      (db.tasks.filter (fun t => t.uuid = uuid ∧ t.type = 0)).head? = some row →
      getTodoByUuid db nowMs uuid =
        some (rowToTodo db (calibrateStartDateEpoch db nowMs) (baseSelect db row))) ∧
    (∀ (db : ThingsDb) (nowMs : Int) (uuid : String) (row : TaskRow),
      (db.tasks.filter (fun t => t.uuid = uuid ∧ t.type = 1)).head? = some row →
      ∃ pd, getProjectByUuid db nowMs uuid = some pd ∧
        pd.toProject = taskToProject db (calibrateStartDateEpoch db nowMs) row) := by
  refine ⟨?_, ?_, ?_, ?_, ?_, ?_, ?_⟩
  · intro db nowMs list t ht
    simp only [getTodosByList] at ht
    split at ht
    · exact exists_decoded_source db _ _ (fun x hx => inboxRows_source hx) t ht
    · obtain ⟨r, hr, heq⟩ := List.mem_map.mp ht
      obtain ⟨row, hmem, htr, hbeq⟩ := todayMergedRows_source hr
      exact ⟨row, hmem, htr, by rw [← heq, hbeq]⟩
    · obtain ⟨r, hr, heq⟩ := List.mem_map.mp ht
      obtain ⟨row, hmem, htr, hbeq⟩ := upcomingMergedRows_source hr
      exact ⟨row, hmem, htr, by rw [← heq, hbeq]⟩
    · exact exists_decoded_source db _ _ (fun x hx => anytimeRows_source hx) t ht
    · exact exists_decoded_source db _ _ (fun x hx => somedayRows_source hx) t ht
    · exact exists_decoded_source db _ _ (fun x hx => logbookRows_source hx) t ht
    · exact absurd ht (List.not_mem_nil t)
  · intro db nowMs q t ht
    exact exists_decoded_source db _ _ (fun x hx => searchRows_source hx) t ht
  · intro db nowMs tagName t ht
    exact exists_decoded_source db _ _ (fun x hx => byTagRows_source hx) t ht
  · intro db nowMs p hp
    obtain ⟨row, hrow, heq⟩ := List.mem_map.mp hp
    have hs := projectRows_source hrow
    exact ⟨row, hs.1, hs.2, heq.symm⟩
  · intro db nowMs uuid pd hpd t ht
    simp only [getProjectByUuid] at hpd
    rcases hh : (db.tasks.filter (fun t => t.uuid = uuid ∧ t.type = 1)).head? with _ | prow
    · rw [hh] at hpd; simp at hpd
    · rw [hh] at hpd
      simp only [Option.map_some', Option.some_inj] at hpd
      rw [← hpd] at ht
      exact exists_decoded_source db _ _ (fun x hx => projectTodoRows_source hx) t ht
  · intro db nowMs uuid row hhead
    simp only [getTodoByUuid, hhead, Option.map_some']
  · intro db nowMs uuid row hhead
    simp only [getProjectByUuid, hhead, Option.map_some']
    exact ⟨_, rfl, rfl⟩

/-- Witness for C2 (amended): the inbox view of `dbInbox` emits a decode
of its single non-trashed row, and the lookup on `dbTrash` returns the
trashed row it finds. -/
theorem C2_trashed_filtering_amended_witness :
    (∃ row ∈ dbInbox.tasks, row.trashed = 0 ∧
      rowToTodo dbInbox (calibrateStartDateEpoch dbInbox 0) (baseSelect dbInbox inboxRow) =
        rowToTodo dbInbox (calibrateStartDateEpoch dbInbox 0) (baseSelect dbInbox row)) ∧
    getTodoByUuid dbTrash 0 ("t1") =
      some (rowToTodo dbTrash (calibrateStartDateEpoch dbTrash 0) (baseSelect dbTrash trashRow)) :=
  ⟨C2_trashed_filtering_amended.1 dbInbox 0 ("inbox")
      (rowToTodo dbInbox (calibrateStartDateEpoch dbInbox 0) (baseSelect dbInbox inboxRow))
      (by decide),
    C2_trashed_filtering_amended.2.2.2.2.2.1 dbTrash 0 ("t1") trashRow (by decide)⟩

end ThingsBridge
